import Mathlib

/-
Verification of the Cold-Email-Automation core logic.

The Python source stores timestamps as ISO text in SQLite; times are
modelled here as rational numbers of seconds on an absolute axis, and a
stored timestamp column is a `RawDate`: either a well-formed ISO string
(carrying the instant it denotes) or a malformed string, on which
`datetime.fromisoformat` raises (modelled as `Except.error`).
-/

namespace ColdEmail

/-- A stored timestamp text column: either well-formed ISO text denoting an
instant (in seconds), or malformed text on which parsing raises. -/
inductive RawDate where
  | iso (t : ℚ)
  | bad (s : String)
deriving DecidableEq

/-- Model of `datetime.fromisoformat` applied to a stored timestamp column:
returns the instant for well-formed text, raises (errors) on malformed text. -/
def fromisoformat : RawDate → Except String ℚ
  | RawDate.iso t => Except.ok t
  | RawDate.bad s => Except.error s

/-- A row of the `contacts` table (schema from `app.py`, `init_db`). -/
structure Contact where
  id : Nat
  email : String
  name : Option String
  initialSentDate : Option RawDate
  followupSentCount : Nat
  lastFollowupDate : Option RawDate
  replied : Bool
  replyDate : Option RawDate
  customFollowupTime : Option String
deriving DecidableEq

/-- The scheduler settings consulted by `send_followups`
(`scheduler_manager.get_settings()` in `email_automation.py`). -/
structure Settings where
  maxFollowups : Nat
  followupDelayValue : ℚ
  followupDelayUnit : String
  followupDelayType : String
deriving DecidableEq

/-- `send_followups` lines 141-147: convert the configured delay to days. -/
def delayDays (st : Settings) : ℚ :=
  if st.followupDelayUnit = "hours" then st.followupDelayValue / 24
  else if st.followupDelayUnit = "minutes" then st.followupDelayValue / (24 * 60)
  else st.followupDelayValue

/-- The configured follow-up interval as a duration in seconds (the spec's
duration `D`: value in minutes, hours, or days). -/
def intervalSeconds (st : Settings) : ℚ :=
  if st.followupDelayUnit = "hours" then st.followupDelayValue * 3600
  else if st.followupDelayUnit = "minutes" then st.followupDelayValue * 60
  else st.followupDelayValue * 86400

/-- The decision-engine outcome for one contact. -/
inductive Action where
  | sendInitial
  | sendFollowup (n : Nat)
  | skip
deriving DecidableEq

/-- The selection made by `send_initial_emails` (line 85-86):
`SELECT * FROM contacts WHERE initial_sent_date IS NULL`. A selected contact
gets an initial email; any other contact is skipped by this pass. Note the
query filters on `initial_sent_date` only. -/
def initialDecide (c : Contact) : Action :=
  if c.initialSentDate.isNone then Action.sendInitial else Action.skip

/-- The per-contact follow-up decision of `send_followups` (lines 149-179):
the SQL selection (`replied = 0 AND initial_sent_date IS NOT NULL AND
followup_sent_count < max_followups`) followed by the in-loop anchor and
interval check. `datetime.fromisoformat` on the anchor may raise, which is
the `Except.error` outcome. -/
def followupDecide (st : Settings) (now : ℚ) (c : Contact) : Except String Action :=
  if c.replied then Except.ok Action.skip
  else
    match c.initialSentDate with
    | none => Except.ok Action.skip
    | some init =>
      if st.maxFollowups ≤ c.followupSentCount then Except.ok Action.skip
      else
        match fromisoformat (c.lastFollowupDate.getD init) with
        | Except.error e => Except.error e
        | Except.ok lastDate =>
          if st.followupDelayType = "interval" then
            if (now - lastDate) / 86400 < delayDays st then Except.ok Action.skip
            else Except.ok (Action.sendFollowup (c.followupSentCount + 1))
          else Except.ok (Action.sendFollowup (c.followupSentCount + 1))

/-- One follow-up pass over a single contact (`send_followups` lines 185-195):
if a follow-up is due and the send succeeds, one `UPDATE` sets
`followup_sent_count = old + 1` and `last_followup_date = now` together; on
send failure (or when no follow-up is due) the row is untouched. -/
def followupPassContact (st : Settings) (now : ℚ) (sendOk : Bool) (c : Contact) : Contact :=
  match followupDecide st now c with
  | Except.ok (Action.sendFollowup n) =>
    if sendOk then
      { c with followupSentCount := n, lastFollowupDate := some (RawDate.iso now) }
    else c
  | _ => c

/-- One initial-email pass over a single contact (`send_initial_emails` lines
94-100): if selected and the send succeeds, `initial_sent_date` is set; on
send failure the row is untouched. -/
def initialPassContact (now : ℚ) (sendOk : Bool) (c : Contact) : Contact :=
  match initialDecide c with
  | Action.sendInitial =>
    if sendOk then { c with initialSentDate := some (RawDate.iso now) } else c
  | _ => c

/-- The `send_followups` batch loop (lines 157-210): contacts are processed
in order with no per-contact exception handling, so a parse error on one
contact's stored timestamp propagates and the remaining contacts of the
batch are not processed. -/
def runFollowupBatch (st : Settings) (now : ℚ) (sendOk : Bool) :
    List Contact → Except String (List Contact)
  | [] => Except.ok []
  | c :: cs =>
    match followupDecide st now c with
    | Except.error e => Except.error e
    | Except.ok _ =>
      match runFollowupBatch st now sendOk cs with
      | Except.error e => Except.error e
      | Except.ok rest => Except.ok (followupPassContact st now sendOk c :: rest)

/-- Python `text.split(sep)` for a one-character separator, on the
character list of the text. -/
def splitOnChar (sep : Char) : List Char → List (List Char)
  | [] => [[]]
  | c :: rest =>
    if c = sep then [] :: splitOnChar sep rest
    else
      match splitOnChar sep rest with
      | [] => [[c]]
      | grp :: gs => (c :: grp) :: gs

/-- Python whitespace, as stripped by `str.strip()`. -/
def isPySpace (c : Char) : Bool :=
  c = ' ' || c = '\t' || c = '\n' || c = '\r'

/-- Python `text.strip()` on a character list. -/
def stripChars (s : List Char) : List Char :=
  ((s.dropWhile isPySpace).reverse.dropWhile isPySpace).reverse

/-- Sender-address extraction from a From header (`check_replies_and_forward`
lines 265-276): take the text between the angle brackets when both are
present; otherwise, when the header contains a space, take the first
whitespace-separated part containing an at sign; otherwise the header text
itself. -/
def extractSenderEmail (sender : String) : String :=
  let cs := sender.data
  if cs.contains '<' && cs.contains '>' then
    String.mk (stripChars ((splitOnChar '>' ((splitOnChar '<' cs).getD 1 [])).getD 0 []))
  else if cs.contains ' ' then
    match (splitOnChar ' ' cs).find? (fun p => p.contains '@') with
    | some p => String.mk (stripChars p)
    | none => sender
  else sender

/-- Contact lookup by sender address (`check_replies_and_forward` lines
281-283): `SELECT * FROM contacts WHERE email = ?` returning the first hit.
SQLite compares TEXT with the default BINARY collation, so the comparison
is exact byte equality. -/
def findByEmail : List Contact → String → Option Contact
  | [], _ => none
  | c :: cs, addr => if c.email = addr then some c else findByEmail cs addr

/-- The replied-transition `UPDATE contacts SET replied = 1, reply_date = ?
WHERE email = ?` (`check_replies_and_forward` lines 292-294). -/
def markReplied (now : ℚ) (addr : String) : List Contact → List Contact
  | [] => []
  | d :: ds =>
    (if d.email = addr then { d with replied := true, replyDate := some (RawDate.iso now) }
     else d) :: markReplied now addr ds

/-- The reconciliation outcome for one incoming message. -/
inductive ReconcileResult where
  | matched (id : Nat)
  | unmatched
deriving DecidableEq

/-- Reconcile one incoming message's sender against the contacts
(`check_replies_and_forward` lines 281-307): on a lookup hit, mark replied
only when not already replied; on a miss, no state change. -/
def reconcile (now : ℚ) (cs : List Contact) (senderEmail : String) :
    ReconcileResult × List Contact :=
  match findByEmail cs senderEmail with
  | none => (ReconcileResult.unmatched, cs)
  | some c =>
    if c.replied then (ReconcileResult.matched c.id, cs)
    else (ReconcileResult.matched c.id, markReplied now senderEmail cs)

/-- One manager-forward attempt and its logged outcome
(`check_replies_and_forward` lines 348-362). -/
structure ForwardRecord where
  manager : String
  succeeded : Bool
deriving DecidableEq

/-- The forward loop over `credentials['manager_emails']`
(`check_replies_and_forward` lines 348-362): one send per configured
manager address, with each outcome logged independently. -/
def forwardToManagers (managers : List String) (sendOk : String → Bool) : List ForwardRecord :=
  managers.map fun m => { manager := m, succeeded := sendOk m }

/-- Processing of one incoming message in the reply-poll pass
(`check_replies_and_forward` lines 248-367): extract the sender address,
look up the contact; on a hit, apply the replied transition (if needed) and
forward to every manager; on a miss, do nothing. -/
def processReplyMessage (now : ℚ) (cs : List Contact) (sender : String)
    (managers : List String) (sendOk : String → Bool) :
    ReconcileResult × List Contact × List ForwardRecord :=
  let senderEmail := extractSenderEmail sender
  match findByEmail cs senderEmail with
  | none => (ReconcileResult.unmatched, cs, [])
  | some c =>
    let cs1 := if c.replied then cs else markReplied now senderEmail cs
    (ReconcileResult.matched c.id, cs1, forwardToManagers managers sendOk)

/-- A JSON scalar stored in the scheduler settings document. -/
inductive SettingVal where
  | str (v : String)
  | num (v : Int)
  | boolean (v : Bool)
deriving DecidableEq

/-- A Python dict of scheduler settings, as an ordered association list
(Python dicts are insertion-ordered and never hold a duplicate key). -/
abbrev SettingsDict := List (String × SettingVal)

/-- Dict read: first binding of the key, if any. -/
def dictGet : SettingsDict → String → Option SettingVal
  | [], _ => none
  | kv :: rest, k => if kv.1 = k then some kv.2 else dictGet rest k

/-- Python `key in settings`. -/
def dictHas (d : SettingsDict) (k : String) : Bool :=
  (dictGet d k).isSome

/-- Python `settings[key] = value`: overwrite the binding in place when the
key is present, append a new binding otherwise. -/
def dictSet : SettingsDict → String → SettingVal → SettingsDict
  | [], k, v => [(k, v)]
  | kv :: rest, k, v => if kv.1 = k then (k, v) :: rest else kv :: dictSet rest k v

/-- `DEFAULT_SETTINGS` from `scheduler_settings.py` (lines 12-22). -/
def DEFAULT_SETTINGS : SettingsDict :=
  [("schedule_time", SettingVal.str "08:00"),
   ("followup_delay_type", SettingVal.str "interval"),
   ("followup_delay_value", SettingVal.num 3),
   ("followup_delay_unit", SettingVal.str "days"),
   ("followup_delay_time", SettingVal.str "14:00"),
   ("max_followups", SettingVal.num 2),
   ("email_delay", SettingVal.num 5),
   ("scheduler_enabled", SettingVal.boolean true),
   ("timezone", SettingVal.str "Asia/Kolkata")]

/-- `SchedulerManager.load_settings` (lines 30-43): `file` is the parsed
settings file (`none` when the file is missing or unreadable). On a parse
success, every `DEFAULT_SETTINGS` key missing from the file content is
filled in with its default; otherwise a copy of the defaults is returned. -/
def load_settings (file : Option SettingsDict) : SettingsDict :=
  match file with
  | some s =>
    DEFAULT_SETTINGS.foldl
      (fun acc kv => if dictHas acc kv.1 then acc else dictSet acc kv.1 kv.2) s
  | none => DEFAULT_SETTINGS

/-- `SchedulerManager.save_settings` (lines 45-52), state part:
`self.settings.update(new_settings)` merges the new bindings into the
existing dict. -/
def save_settings (st : SettingsDict) (new : SettingsDict) : SettingsDict :=
  new.foldl (fun acc kv => dictSet acc kv.1 kv.2) st

/-- A heap of Python dict objects, with the manager's `self.settings`
held at reference `mgrRef`. References are heap indices; this makes the
difference between returning `self.settings` and returning a copy
observable. -/
structure ManagerState where
  heap : List SettingsDict
  mgrRef : Nat

/-- The dict object currently stored as `self.settings`. -/
def managerDict (st : ManagerState) : SettingsDict :=
  st.heap.getD st.mgrRef []

/-- `SchedulerManager.get_settings` (lines 54-56): `return
self.settings.copy()` allocates a fresh dict object holding the same
bindings and returns a reference to it. -/
def get_settings (st : ManagerState) : Nat × ManagerState :=
  (st.heap.length, { st with heap := st.heap ++ [managerDict st] })

/-- A caller-side in-place mutation `d[k] = v` of the dict object behind
reference `r`. -/
def mutateRef (st : ManagerState) (r : Nat) (k : String) (v : SettingVal) : ManagerState :=
  { st with heap := st.heap.set r (dictSet (st.heap.getD r []) k v) }

/-! ### Shared fixtures and helper lemmas -/

/-- A contact who replied before ever receiving an initial email (a reply can
be reconciled for any contact row, including one never contacted). -/
def repliedNeverContacted : Contact :=
  { id := 1, email := "early@x.com", name := none, initialSentDate := none,
    followupSentCount := 0, lastFollowupDate := none, replied := true,
    replyDate := some (RawDate.iso 0), customFollowupTime := none }

/-- A contact who was sent the initial email and then replied. -/
def repliedContacted : Contact :=
  { id := 2, email := "done@x.com", name := none,
    initialSentDate := some (RawDate.iso 0), followupSentCount := 1,
    lastFollowupDate := none, replied := true,
    replyDate := some (RawDate.iso 3600), customFollowupTime := none }

/-- An interval-mode configuration: follow-up every 3 days, at most 2. -/
def intervalSettings : Settings :=
  { maxFollowups := 2, followupDelayValue := 3, followupDelayUnit := "days",
    followupDelayType := "interval" }

/-- Converting the configured delay to days and re-scaling by 86400 gives
the interval as a duration in seconds. -/
theorem delayDays_mul_86400 (st : Settings) : delayDays st * 86400 = intervalSeconds st := by
  unfold delayDays intervalSeconds
  split_ifs <;> ring

/-! ### C1 — replied contacts and outbound sends -/

/-- C1: counterexample. A contact with `replied = true` and
`initial_sent_at` null is selected by `send_initial_emails`
(`WHERE initial_sent_date IS NULL` has no `replied` filter), so an initial
email is sent to a replied contact: the claim that no outbound email is ever
sent to a replied contact, even when `initial_sent_at` is null, is false. -/
theorem c1_replied_gets_initial_email :
    repliedNeverContacted.replied = true ∧
    repliedNeverContacted.initialSentDate = none ∧
    initialDecide repliedNeverContacted = Action.sendInitial ∧
    initialDecide repliedNeverContacted ≠ Action.skip ∧
    (initialPassContact 5 true repliedNeverContacted).initialSentDate = some (RawDate.iso 5) := by
  refine ⟨rfl, rfl, rfl, ?_, rfl⟩
  decide

/-- C1 (amended): for every contact with `replied = true`, the follow-up
pass decides `Skip` and leaves the contact unchanged, and the initial pass
skips the contact provided `initial_sent_at` is set; the initial pass
selects on `initial_sent_at` alone, so a replied contact with
`initial_sent_at` null still receives an initial email. -/
theorem c1_replied_never_followed_up (st : Settings) (now : ℚ) (sendOk : Bool) (c : Contact)
    (h : c.replied = true) :
    followupDecide st now c = Except.ok Action.skip ∧
    followupPassContact st now sendOk c = c ∧
    (c.initialSentDate.isSome → initialDecide c = Action.skip) := by
  have h1 : followupDecide st now c = Except.ok Action.skip := by
    unfold followupDecide
    rw [if_pos h]
  refine ⟨h1, ?_, ?_⟩
  · unfold followupPassContact
    rw [h1]
  · intro hs
    unfold initialDecide
    rw [if_neg]
    simp [Option.isNone_iff_eq_none]
    exact Option.isSome_iff_ne_none.mp hs

/-- C1 witness: the amended statement evaluated on a concrete replied
contact. -/
theorem c1_replied_never_followed_up_witness :
    followupDecide intervalSettings 999999 repliedContacted = Except.ok Action.skip ∧
    followupPassContact intervalSettings 999999 true repliedContacted = repliedContacted ∧
    (repliedContacted.initialSentDate.isSome → initialDecide repliedContacted = Action.skip) :=
  c1_replied_never_followed_up intervalSettings 999999 true repliedContacted rfl

/-! ### C2 — INTERVAL-mode due check -/

/-- C2: in INTERVAL mode, for a contact that is selected (initial sent, not
replied, count below the maximum) whose anchor (last follow-up if present,
else the initial send) parses to instant `A`, the decision is `Skip` exactly
when `now - A` is less than the configured interval `D` (in seconds), and
`SendFollowup(count + 1)` exactly when `now - A ≥ D`. -/
theorem c2_interval_due_decision (st : Settings) (now A : ℚ) (c : Contact) (i : RawDate)
    (hty : st.followupDelayType = "interval")
    (hrep : c.replied = false)
    (hinit : c.initialSentDate = some i)
    (hanchor : c.lastFollowupDate.getD i = RawDate.iso A)
    (hcount : c.followupSentCount < st.maxFollowups) :
    followupDecide st now c =
      Except.ok (if now - A < intervalSeconds st then Action.skip
                 else Action.sendFollowup (c.followupSentCount + 1)) := by
  have hnle : ¬ st.maxFollowups ≤ c.followupSentCount := not_le.mpr hcount
  have hiff : ((now - A) / 86400 < delayDays st) ↔ (now - A < intervalSeconds st) := by
    rw [div_lt_iff₀ (by norm_num : (0 : ℚ) < 86400), delayDays_mul_86400]
  obtain ⟨cid, cem, cnm, cisd, cfc, clfd, crep, crd, ccft⟩ := c
  simp only at hrep hinit hanchor hcount hnle ⊢
  subst hrep hinit
  unfold followupDecide
  simp only [Bool.false_eq_true, if_false, hanchor, fromisoformat, hty, if_pos rfl, hnle,
    reduceIte]
  simp only [hiff]
  rw [apply_ite Except.ok]

/-- A 2-hour interval configuration with at most 2 follow-ups. -/
def twoHourSettings : Settings :=
  { maxFollowups := 2, followupDelayValue := 2, followupDelayUnit := "hours",
    followupDelayType := "interval" }

/-- A contact whose initial email went out at instant 0 and who never got a
follow-up or replied. -/
def freshContact : Contact :=
  { id := 3, email := "fresh@x.com", name := none,
    initialSentDate := some (RawDate.iso 0), followupSentCount := 0,
    lastFollowupDate := none, replied := false, replyDate := none,
    customFollowupTime := none }

/-- C2 witness: the concrete contact whose anchor is the initial send at
instant 0, with a 2-hour interval, evaluated at `now = 7200` seconds via the
theorem. -/
theorem c2_interval_due_decision_witness :
    followupDecide twoHourSettings 7200 freshContact =
      Except.ok (if (7200 : ℚ) - 0 < intervalSeconds twoHourSettings
        then Action.skip else Action.sendFollowup (0 + 1)) :=
  c2_interval_due_decision twoHourSettings 7200 0 freshContact (RawDate.iso 0)
    rfl rfl rfl rfl (by decide)

/-! ### C3 — the follow-up count never exceeds the maximum -/

/-- When the decision is a follow-up, its number is exactly the current
count plus one, and the contact was below the configured maximum. -/
theorem followupDecide_sendFollowup_eq (st : Settings) (now : ℚ) (c : Contact) (n : Nat)
    (h : followupDecide st now c = Except.ok (Action.sendFollowup n)) :
    n = c.followupSentCount + 1 ∧ c.followupSentCount < st.maxFollowups := by
  unfold followupDecide at h
  split at h
  · simp at h
  · split at h
    · simp at h
    · split at h
      · simp at h
      · split at h
        · simp at h
        · split at h
          · split at h
            · simp at h
            · simp at h
              refine ⟨?_, ?_⟩ <;> omega
          · simp at h
            refine ⟨?_, ?_⟩ <;> omega

/-- A single batch pass never pushes the count above the maximum. -/
theorem followupPassContact_count_le (st : Settings) (now : ℚ) (sendOk : Bool) (c : Contact)
    (h : c.followupSentCount ≤ st.maxFollowups) :
    (followupPassContact st now sendOk c).followupSentCount ≤ st.maxFollowups := by
  unfold followupPassContact
  split
  · next n heq =>
    obtain ⟨hn, hlt⟩ := followupDecide_sendFollowup_eq st now c n heq
    split
    · show n ≤ st.maxFollowups
      omega
    · exact h
  · exact h

/-- C3: starting from a contact whose count is within the configured
maximum, any number of batch-send passes (each with its own clock reading
and send outcome) keeps `followup_count ≤ max_followups`; moreover one pass
either leaves the count unchanged or increments it by exactly 1, and the
increment happens only when the contact was strictly below the maximum. -/
theorem c3_followup_count_never_exceeds_max (st : Settings) (c : Contact)
    (passes : List (ℚ × Bool))
    (h : c.followupSentCount ≤ st.maxFollowups) :
    (passes.foldl (fun acc p => followupPassContact st p.1 p.2 acc) c).followupSentCount
        ≤ st.maxFollowups ∧
    ∀ now sendOk,
      (followupPassContact st now sendOk c).followupSentCount = c.followupSentCount ∨
      ((followupPassContact st now sendOk c).followupSentCount = c.followupSentCount + 1 ∧
        c.followupSentCount < st.maxFollowups) := by
  constructor
  · induction passes generalizing c with
    | nil => exact h
    | cons p ps ih => exact ih _ (followupPassContact_count_le st p.1 p.2 c h)
  · intro now sendOk
    unfold followupPassContact
    split
    · next n heq =>
      obtain ⟨hn, hlt⟩ := followupDecide_sendFollowup_eq st now c n heq
      split
      · right
        exact ⟨hn, hlt⟩
      · left; rfl
    · left; rfl

/-- C3 witness: three consecutive successful passes at 10-day spacing under
the 3-day / max-2 configuration keep the count at or below 2. -/
theorem c3_followup_count_never_exceeds_max_witness :
    (([((864000 : ℚ), true), (1728000, true), (2592000, true)].foldl
        (fun acc p => followupPassContact intervalSettings p.1 p.2 acc) freshContact)
      ).followupSentCount ≤ intervalSettings.maxFollowups ∧
    ∀ now sendOk,
      (followupPassContact intervalSettings now sendOk freshContact).followupSentCount =
        freshContact.followupSentCount ∨
      ((followupPassContact intervalSettings now sendOk freshContact).followupSentCount =
          freshContact.followupSentCount + 1 ∧
        freshContact.followupSentCount < intervalSettings.maxFollowups) :=
  c3_followup_count_never_exceeds_max intervalSettings freshContact
    [(864000, true), (1728000, true), (2592000, true)] (by decide)

/-! ### C4 — a malformed stored timestamp aborts the batch -/

/-- A contact whose stored `initial_sent_date` is unparseable text. -/
def badDateContact : Contact :=
  { id := 10, email := "bad@x.com", name := none,
    initialSentDate := some (RawDate.bad "not-a-date"), followupSentCount := 0,
    lastFollowupDate := none, replied := false, replyDate := none,
    customFollowupTime := none }

/-- A second contact of the same batch, due for a follow-up. -/
def dueContact : Contact :=
  { id := 11, email := "due@x.com", name := none,
    initialSentDate := some (RawDate.iso 0), followupSentCount := 0,
    lastFollowupDate := none, replied := false, replyDate := none,
    customFollowupTime := none }

/-- C4: the `send_followups` loop has no per-contact exception handling, so
`datetime.fromisoformat` raising on one contact's stored timestamp aborts
the whole batch: with a malformed-date contact first, the batch errors out
even though the next contact of the batch was due for a follow-up, contrary
to the claim that the contact is treated as Skip and the rest of the batch
continues. -/
theorem c4_malformed_date_aborts_batch :
    runFollowupBatch intervalSettings 864000 true [badDateContact, dueContact] =
      Except.error "not-a-date" ∧
    followupDecide intervalSettings 864000 dueContact =
      Except.ok (Action.sendFollowup 1) ∧
    followupDecide intervalSettings 864000 badDateContact =
      Except.error "not-a-date" := by
  refine ⟨rfl, ?_, rfl⟩
  have hd : delayDays intervalSettings = 3 := by
    unfold delayDays intervalSettings
    rw [if_neg (by decide), if_neg (by decide)]
  have hmax : intervalSettings.maxFollowups = 2 := rfl
  have htype : intervalSettings.followupDelayType = "interval" := rfl
  norm_num [followupDecide, dueContact, fromisoformat, hd, hmax, htype]

/-! ### C5 — reply matching is exact, not case-insensitive -/

/-- The contact of the spec's matching scenario. -/
def janeContact : Contact :=
  { id := 7, email := "jane@x.com", name := some "Jane",
    initialSentDate := some (RawDate.iso 0), followupSentCount := 0,
    lastFollowupDate := none, replied := false, replyDate := none,
    customFollowupTime := none }

/-- C5: counterexample. `SELECT * FROM contacts WHERE email = ?` compares
with SQLite's default BINARY collation, so a From address differing from the
stored one only in letter case does not match: a message from
`Jane <JANE@X.COM>` against the stored contact `jane@x.com` yields no hit
and the reconciliation result is `Unmatched`, contrary to the claim. -/
theorem c5_uppercase_sender_unmatched :
    extractSenderEmail "Jane <JANE@X.COM>" = "JANE@X.COM" ∧
    "JANE@X.COM" ≠ janeContact.email ∧
    "JANE@X.COM".data.map Char.toLower = janeContact.email.data ∧
    findByEmail [janeContact] "JANE@X.COM" = none ∧
    (processReplyMessage 5 [janeContact] "Jane <JANE@X.COM>" ["m@x.com"] (fun _ => true)).1 =
      ReconcileResult.unmatched := by
  refine ⟨?_, ?_, ?_, ?_, ?_⟩ <;> decide

/-- C5 (amended): contact lookup by sender address is exact byte equality:
any hit has its stored `email` literally equal to the queried address, and a
sender address literally equal to a stored contact address always produces a
hit. Case-insensitive variants are not matched. -/
theorem c5_lookup_is_exact_match (cs : List Contact) (a : String) :
    (∀ c, findByEmail cs a = some c → c.email = a) ∧
    ((∃ c ∈ cs, c.email = a) → ∃ c2, findByEmail cs a = some c2 ∧ c2.email = a) := by
  induction cs with
  | nil =>
    constructor
    · intro c h
      cases h
    · rintro ⟨c, hc, -⟩
      cases hc
  | cons d ds ih =>
    constructor
    · intro c h
      unfold findByEmail at h
      by_cases hd : d.email = a
      · rw [if_pos hd] at h
        injection h with h2
        rw [← h2]
        exact hd
      · rw [if_neg hd] at h
        exact ih.1 c h
    · rintro ⟨c, hc, he⟩
      by_cases hd : d.email = a
      · refine ⟨d, ?_, hd⟩
        unfold findByEmail
        rw [if_pos hd]
      · rcases List.mem_cons.mp hc with rfl | hmem
        · exact absurd he hd
        · obtain ⟨c2, h2, he2⟩ := ih.2 ⟨c, hmem, he⟩
          refine ⟨c2, ?_, he2⟩
          unfold findByEmail
          rw [if_neg hd]
          exact h2

/-- C5 witness: the exact-match theorem evaluated on the stored contact
`jane@x.com` and the same-case sender address. -/
theorem c5_lookup_is_exact_match_witness :
    (∀ c, findByEmail [janeContact] "jane@x.com" = some c → c.email = "jane@x.com") ∧
    ((∃ c ∈ [janeContact], c.email = "jane@x.com") →
      ∃ c2, findByEmail [janeContact] "jane@x.com" = some c2 ∧ c2.email = "jane@x.com") :=
  c5_lookup_is_exact_match [janeContact] "jane@x.com"

/-! ### C6 — reconciliation is idempotent -/

/-- One-step unfolding of `markReplied` on a cons cell. -/
theorem markReplied_cons (now : ℚ) (a : String) (d : Contact) (ds : List Contact) :
    markReplied now a (d :: ds) =
      (if d.email = a then { d with replied := true, replyDate := some (RawDate.iso now) }
       else d) :: markReplied now a ds := rfl

/-- One-step unfolding of `findByEmail` on a cons cell. -/
theorem findByEmail_cons (d : Contact) (ds : List Contact) (a : String) :
    findByEmail (d :: ds) a = if d.email = a then some d else findByEmail ds a := rfl

/-- Marking a matched address replied moves the lookup hit to the updated
row: same row, with `replied` set and `reply_date` stamped. -/
theorem findByEmail_markReplied (now : ℚ) (a : String) (cs : List Contact) (c : Contact)
    (h : findByEmail cs a = some c) :
    findByEmail (markReplied now a cs) a =
      some { c with replied := true, replyDate := some (RawDate.iso now) } := by
  induction cs with
  | nil => cases h
  | cons d ds ih =>
    rw [findByEmail_cons] at h
    rw [markReplied_cons, findByEmail_cons]
    by_cases hd : d.email = a
    · rw [if_pos hd] at h
      injection h with h2
      subst h2
      have hd2 : ({ d with replied := true, replyDate := some (RawDate.iso now) } : Contact).email = a := hd
      rw [if_pos hd, if_pos hd2]
    · rw [if_neg hd] at h
      rw [if_neg hd, if_neg hd]
      exact ih h

/-- Every row of the updated list holding the matched address has
`replied` set and `reply_date` stamped. -/
theorem markReplied_sets (now : ℚ) (a : String) (cs : List Contact) :
    ∀ d ∈ markReplied now a cs, d.email = a →
      d.replied = true ∧ d.replyDate = some (RawDate.iso now) := by
  induction cs with
  | nil =>
    intro d hd
    cases hd
  | cons e es ih =>
    intro d hd hde
    rw [markReplied_cons] at hd
    rcases List.mem_cons.mp hd with heq | hmem
    · by_cases he : e.email = a
      · rw [if_pos he] at heq
        subst heq
        exact ⟨rfl, rfl⟩
      · rw [if_neg he] at heq
        subst heq
        exact absurd hde he
    · exact ih d hmem hde

/-- C6: when a sender address matches a contact, reconciling the same
message twice yields `Matched` both times; the second reconciliation leaves
the contact list exactly as the first left it, and (when the contact had not
yet replied) the first reconciliation sets `replied = true` and stamps
`reply_date` on every row holding that address. -/
theorem c6_reconcile_idempotent (now now2 : ℚ) (cs : List Contact) (a : String) (c : Contact)
    (h : findByEmail cs a = some c) :
    (reconcile now cs a).1 = ReconcileResult.matched c.id ∧
    (reconcile now2 (reconcile now cs a).2 a).1 = ReconcileResult.matched c.id ∧
    (reconcile now2 (reconcile now cs a).2 a).2 = (reconcile now cs a).2 ∧
    (c.replied = false → ∀ d ∈ (reconcile now cs a).2, d.email = a →
      d.replied = true ∧ d.replyDate = some (RawDate.iso now)) := by
  by_cases hr : c.replied = true
  · have e1 : reconcile now cs a = (ReconcileResult.matched c.id, cs) := by
      unfold reconcile
      rw [h]
      simp [hr]
    have e2 : reconcile now2 cs a = (ReconcileResult.matched c.id, cs) := by
      unfold reconcile
      rw [h]
      simp [hr]
    rw [e1]
    refine ⟨rfl, ?_, ?_, ?_⟩
    · rw [e2]
    · rw [e2]
    · intro hf
      rw [hr] at hf
      cases hf
  · have e1 : reconcile now cs a = (ReconcileResult.matched c.id, markReplied now a cs) := by
      unfold reconcile
      rw [h]
      simp [hr]
    have hfind2 := findByEmail_markReplied now a cs c h
    have e2 : reconcile now2 (markReplied now a cs) a =
        (ReconcileResult.matched c.id, markReplied now a cs) := by
      unfold reconcile
      rw [hfind2]
      simp
    rw [e1]
    refine ⟨rfl, ?_, ?_, ?_⟩
    · rw [e2]
    · rw [e2]
    · intro _ d hd hde
      exact markReplied_sets now a cs d hd hde

/-- C6 witness: the idempotence statement evaluated on a one-contact store
with the contact not yet replied. -/
theorem c6_reconcile_idempotent_witness :
    (reconcile 5 [janeContact] "jane@x.com").1 = ReconcileResult.matched janeContact.id ∧
    (reconcile 9 (reconcile 5 [janeContact] "jane@x.com").2 "jane@x.com").1 =
      ReconcileResult.matched janeContact.id ∧
    (reconcile 9 (reconcile 5 [janeContact] "jane@x.com").2 "jane@x.com").2 =
      (reconcile 5 [janeContact] "jane@x.com").2 ∧
    (janeContact.replied = false → ∀ d ∈ (reconcile 5 [janeContact] "jane@x.com").2,
      d.email = "jane@x.com" → d.replied = true ∧ d.replyDate = some (RawDate.iso 5)) :=
  c6_reconcile_idempotent 5 9 [janeContact] "jane@x.com" janeContact rfl

/-! ### C7 — state updates are atomic with respect to send outcome -/

/-- C7: when a send fails, the contact row is left completely unchanged (so
the next pass retries); when a follow-up send succeeds, the count increment
and the last-contact timestamp are applied together in one update; when an
initial send succeeds, `initial_sent_date` is set. No partial update
exists. -/
theorem c7_send_outcome_atomic (st : Settings) (now : ℚ) (c : Contact) :
    followupPassContact st now false c = c ∧
    (∀ n, followupDecide st now c = Except.ok (Action.sendFollowup n) →
      followupPassContact st now true c =
        { c with followupSentCount := n, lastFollowupDate := some (RawDate.iso now) }) ∧
    initialPassContact now false c = c ∧
    (c.initialSentDate = none →
      initialPassContact now true c = { c with initialSentDate := some (RawDate.iso now) }) := by
  refine ⟨?_, ?_, ?_, ?_⟩
  · unfold followupPassContact
    split <;> simp
  · intro n hn
    unfold followupPassContact
    rw [hn]
    rfl
  · unfold initialPassContact
    split <;> simp
  · intro hnone
    unfold initialPassContact initialDecide
    rw [hnone]
    rfl

/-- C7 witness: a due contact under the 2-hour configuration — a failed
send leaves the row untouched, a successful one writes count and timestamp
together; and a never-contacted row gets its initial date set only on
success. -/
theorem c7_send_outcome_atomic_witness :
    followupPassContact twoHourSettings 7200 false freshContact = freshContact ∧
    followupPassContact twoHourSettings 7200 true freshContact =
      { freshContact with followupSentCount := 1, lastFollowupDate := some (RawDate.iso 7200) } ∧
    initialPassContact 7200 false repliedNeverContacted = repliedNeverContacted ∧
    initialPassContact 7200 true repliedNeverContacted =
      { repliedNeverContacted with initialSentDate := some (RawDate.iso 7200) } := by
  obtain ⟨h1, h2, h3, h4⟩ := c7_send_outcome_atomic twoHourSettings 7200 freshContact
  obtain ⟨-, -, h5, h6⟩ := c7_send_outcome_atomic twoHourSettings 7200 repliedNeverContacted
  refine ⟨h1, h2 1 ?_, h5, h6 rfl⟩
  have hd : delayDays twoHourSettings = 2 / 24 := by
    unfold delayDays twoHourSettings
    rw [if_pos rfl]
  have hmax : twoHourSettings.maxFollowups = 2 := rfl
  have htype : twoHourSettings.followupDelayType = "interval" := rfl
  norm_num [followupDecide, freshContact, fromisoformat, hd, hmax, htype]

/-! ### C8 — custom_followup_time is stored but never consulted -/

/-- Decimal-digit parse of a character list (the numeric reading of a
stored override text). -/
def parseNatChars (cs : List Char) : Option Nat :=
  cs.foldl
    (fun acc c =>
      match acc with
      | none => none
      | some n => if c.isDigit then some (n * 10 + (c.toNat - 48)) else none)
    (if cs.isEmpty then none else some 0)

/-- Modelled from the spec: §4.1's per-contact override rule — "if
`contact.custom_followup_time` is set, it substitutes for
`config.followup_fixed_time` / `config.followup_interval` in steps 5-6 for
that contact only". The override text is read as the interval value
(in the configured unit) replacing `config.followup_interval` for this
contact; contacts without the override (or with unreadable text) use the
campaign configuration. -/
def specFollowupDecide (st : Settings) (now : ℚ) (c : Contact) : Except String Action :=
  match c.customFollowupTime with
  | none => followupDecide st now c
  | some t =>
    match parseNatChars t.data with
    | none => followupDecide st now c
    | some v => followupDecide { st with followupDelayValue := (v : ℚ) } now c

/-- The campaign configuration as the spec's override rule rewrites it for
a contact whose stored override value is 1: the interval value replaced by
the contact's 1. -/
def specOverridden : Settings :=
  { maxFollowups := 2, followupDelayValue := ((1 : Nat) : ℚ),
    followupDelayUnit := "days", followupDelayType := "interval" }

/-- A contact with a per-contact override of 1 (day), under a campaign
configuration of 3 days, two days after the initial send. -/
def overrideContact : Contact :=
  { id := 20, email := "override@x.com", name := none,
    initialSentDate := some (RawDate.iso 0), followupSentCount := 0,
    lastFollowupDate := none, replied := false, replyDate := none,
    customFollowupTime := some "1" }

/-- C8: counterexample. Two days after the initial send, with the campaign
interval at 3 days and the contact's `custom_followup_time` set to 1, the
spec's decision (honouring the override) is `SendFollowup(1)` while the
code's `send_followups` — which never reads `custom_followup_time` —
skips the contact: the claim that the decision uses the per-contact value
is false. -/
theorem c8_override_not_used :
    overrideContact.customFollowupTime = some "1" ∧
    followupDecide intervalSettings 172800 overrideContact = Except.ok Action.skip ∧
    specFollowupDecide intervalSettings 172800 overrideContact =
      Except.ok (Action.sendFollowup 1) := by
  have hd : delayDays intervalSettings = 3 := by
    unfold delayDays intervalSettings
    rw [if_neg (by decide), if_neg (by decide)]
  have hd1 : delayDays specOverridden = 1 := by
    unfold delayDays specOverridden
    rw [if_neg (by decide), if_neg (by decide)]
    norm_num
  have hmax : intervalSettings.maxFollowups = 2 := rfl
  have htype : intervalSettings.followupDelayType = "interval" := rfl
  have hm2 : specOverridden.maxFollowups = 2 := rfl
  have ht2 : specOverridden.followupDelayType = "interval" := rfl
  refine ⟨rfl, ?_, ?_⟩
  · norm_num [followupDecide, overrideContact, fromisoformat, hd, hmax, htype]
  · have hstep : specFollowupDecide intervalSettings 172800 overrideContact =
        followupDecide specOverridden 172800 overrideContact := rfl
    rw [hstep]
    norm_num [followupDecide, overrideContact, fromisoformat, hd1, hm2, ht2]

/-- C8 (amended): `custom_followup_time` is written by the dashboard's
`update_custom_time` route but never read by `send_followups`: the
follow-up decision is invariant under any change to a contact's
`custom_followup_time`, so every contact is scheduled from the campaign
configuration alone. -/
theorem c8_decision_ignores_custom_time (st : Settings) (now : ℚ) (c : Contact)
    (t : Option String) :
    followupDecide st now { c with customFollowupTime := t } = followupDecide st now c := rfl

/-! ### C9 — forwarding happens exactly on Matched -/

/-- C9: a message whose extracted sender matches a contact (whether or not
that contact is already marked replied) is reconciled as `Matched` and the
forward is attempted to every configured manager address, each outcome
recorded independently; a message with no matching contact yields
`Unmatched`, leaves the contact store untouched, and sends no forward. -/
theorem c9_forward_exactly_on_match (now : ℚ) (cs : List Contact) (sender : String)
    (managers : List String) (sendOk : String → Bool) :
    (∀ c, findByEmail cs (extractSenderEmail sender) = some c →
      (processReplyMessage now cs sender managers sendOk).1 = ReconcileResult.matched c.id ∧
      (processReplyMessage now cs sender managers sendOk).2.2 =
        managers.map (fun m => { manager := m, succeeded := sendOk m })) ∧
    (findByEmail cs (extractSenderEmail sender) = none →
      processReplyMessage now cs sender managers sendOk =
        (ReconcileResult.unmatched, cs, [])) := by
  constructor
  · intro c hc
    simp only [processReplyMessage]
    rw [hc]
    exact ⟨rfl, rfl⟩
  · intro hn
    simp only [processReplyMessage]
    rw [hn]

/-- C9 witness: a matched already-replied contact still gets forwarded to
both managers with per-manager outcomes, and an unknown sender is left
untouched with no forward. -/
theorem c9_forward_exactly_on_match_witness :
    ((processReplyMessage 5 [repliedContacted] "done@x.com" ["m1@x.com", "m2@x.com"]
        (fun m => m == "m1@x.com")).1 = ReconcileResult.matched repliedContacted.id ∧
      (processReplyMessage 5 [repliedContacted] "done@x.com" ["m1@x.com", "m2@x.com"]
        (fun m => m == "m1@x.com")).2.2 =
        ["m1@x.com", "m2@x.com"].map
          (fun m => { manager := m, succeeded := m == "m1@x.com" })) ∧
    processReplyMessage 5 [repliedContacted] "stranger@y.com" ["m1@x.com", "m2@x.com"]
        (fun m => m == "m1@x.com") =
      (ReconcileResult.unmatched, [repliedContacted], []) :=
  ⟨(c9_forward_exactly_on_match 5 [repliedContacted] "done@x.com"
      ["m1@x.com", "m2@x.com"] (fun m => m == "m1@x.com")).1 repliedContacted rfl,
   (c9_forward_exactly_on_match 5 [repliedContacted] "stranger@y.com"
      ["m1@x.com", "m2@x.com"] (fun m => m == "m1@x.com")).2 rfl⟩

/-! ### C10 — SchedulerManager settings contract -/

/-- One-step unfolding of `dictGet` on a cons cell. -/
theorem dictGet_cons (kv : String × SettingVal) (rest : SettingsDict) (k : String) :
    dictGet (kv :: rest) k = if kv.1 = k then some kv.2 else dictGet rest k := rfl

/-- One-step unfolding of `dictSet` on a cons cell. -/
theorem dictSet_cons (kv : String × SettingVal) (rest : SettingsDict) (k : String)
    (v : SettingVal) :
    dictSet (kv :: rest) k v =
      if kv.1 = k then (k, v) :: rest else kv :: dictSet rest k v := rfl

/-- `dictSet` on the empty dict appends the binding. -/
theorem dictSet_nil (k : String) (v : SettingVal) : dictSet [] k v = [(k, v)] := rfl

/-- Membership in a cons dict: the head key or membership in the tail. -/
theorem dictHas_cons (kv : String × SettingVal) (rest : SettingsDict) (k : String) :
    dictHas (kv :: rest) k = if kv.1 = k then true else dictHas rest k := by
  unfold dictHas
  rw [dictGet_cons]
  by_cases hk : kv.1 = k
  · rw [if_pos hk, if_pos hk]
    rfl
  · rw [if_neg hk, if_neg hk]

/-- Reading back the key just written. -/
theorem dictGet_dictSet_self (d : SettingsDict) (k : String) (v : SettingVal) :
    dictGet (dictSet d k v) k = some v := by
  induction d with
  | nil => rw [dictSet_nil, dictGet_cons, if_pos rfl]
  | cons kv rest ih =>
    rw [dictSet_cons]
    by_cases hk : kv.1 = k
    · rw [if_pos hk, dictGet_cons, if_pos rfl]
    · rw [if_neg hk, dictGet_cons, if_neg hk]
      exact ih

/-- Writing one key leaves every other key's value unchanged. -/
theorem dictGet_dictSet_ne (d : SettingsDict) (k0 : String) (v : SettingVal) (k : String)
    (h : k0 ≠ k) :
    dictGet (dictSet d k0 v) k = dictGet d k := by
  induction d with
  | nil =>
    rw [dictSet_nil, dictGet_cons, if_neg h]
  | cons kv rest ih =>
    rw [dictSet_cons]
    by_cases hk : kv.1 = k0
    · rw [if_pos hk, dictGet_cons, dictGet_cons, if_neg h,
        if_neg (fun hcon => h (hk.symm.trans hcon))]
    · rw [if_neg hk, dictGet_cons, dictGet_cons]
      by_cases hkk : kv.1 = k
      · rw [if_pos hkk, if_pos hkk]
      · rw [if_neg hkk, if_neg hkk]
        exact ih

/-- The key just written is present. -/
theorem dictHas_dictSet_self (d : SettingsDict) (k : String) (v : SettingVal) :
    dictHas (dictSet d k v) k = true := by
  unfold dictHas
  rw [dictGet_dictSet_self]
  rfl

/-- Writing any key preserves the presence of every present key. -/
theorem dictHas_dictSet_mono (d : SettingsDict) (k0 : String) (v : SettingVal) (k : String)
    (h : dictHas d k = true) :
    dictHas (dictSet d k0 v) k = true := by
  by_cases hk : k0 = k
  · subst hk
    exact dictHas_dictSet_self d k0 v
  · unfold dictHas
    rw [dictGet_dictSet_ne d k0 v k hk]
    exact h

/-- `save_settings` (dict `update`) preserves the presence of every present
key. -/
theorem save_settings_has (new : SettingsDict) :
    ∀ (st : SettingsDict) (k : String), dictHas st k = true →
      dictHas (save_settings st new) k = true := by
  induction new with
  | nil =>
    intro st k h
    exact h
  | cons kv rest ih =>
    intro st k h
    show dictHas (save_settings (dictSet st kv.1 kv.2) rest) k = true
    exact ih _ k (dictHas_dictSet_mono st kv.1 kv.2 k h)

/-- `save_settings` leaves every key not mentioned in the new bindings at
its prior value. -/
theorem save_settings_not_mem (new : SettingsDict) :
    ∀ (st : SettingsDict) (k : String), dictHas new k = false →
      dictGet (save_settings st new) k = dictGet st k := by
  induction new with
  | nil =>
    intro st k h
    rfl
  | cons kv rest ih =>
    intro st k h
    rw [dictHas_cons] at h
    by_cases hk : kv.1 = k
    · rw [if_pos hk] at h
      cases h
    · rw [if_neg hk] at h
      show dictGet (save_settings (dictSet st kv.1 kv.2) rest) k = dictGet st k
      rw [ih _ k h]
      exact dictGet_dictSet_ne st kv.1 kv.2 k hk

/-- The fill loop of `load_settings` makes every default key (and every key
already in the file content) present. -/
theorem fill_has (defaults : SettingsDict) :
    ∀ (s : SettingsDict) (k : String),
      dictHas defaults k = true ∨ dictHas s k = true →
      dictHas (defaults.foldl
        (fun acc kv => if dictHas acc kv.1 then acc else dictSet acc kv.1 kv.2) s) k = true := by
  induction defaults with
  | nil =>
    intro s k h
    rcases h with h | h
    · cases h
    · exact h
  | cons kv rest ih =>
    intro s k h
    rw [List.foldl_cons]
    rcases h with h | h
    · rw [dictHas_cons] at h
      by_cases hk : kv.1 = k
      · apply ih
        right
        by_cases hs : dictHas s kv.1 = true
        · rw [if_pos hs]
          rw [hk] at hs
          exact hs
        · rw [if_neg hs, ← hk]
          exact dictHas_dictSet_self s kv.1 kv.2
      · rw [if_neg hk] at h
        exact ih _ k (Or.inl h)
    · apply ih
      right
      by_cases hs : dictHas s kv.1 = true
      · rw [if_pos hs]
        exact h
      · rw [if_neg hs]
        exact dictHas_dictSet_mono s kv.1 kv.2 k h

/-- `load_settings` yields a dict containing every default key, whether the
file was missing, unreadable, or partial. -/
theorem load_settings_has (file : Option SettingsDict) (k : String)
    (h : dictHas DEFAULT_SETTINGS k = true) :
    dictHas (load_settings file) k = true := by
  cases file with
  | none => exact h
  | some s => exact fill_has DEFAULT_SETTINGS s k (Or.inl h)

/-- Any sequence of saves preserves the presence of every present key. -/
theorem foldl_save_has (saves : List SettingsDict) :
    ∀ (st : SettingsDict) (k : String), dictHas st k = true →
      dictHas (saves.foldl save_settings st) k = true := by
  induction saves with
  | nil =>
    intro st k h
    exact h
  | cons d rest ih =>
    intro st k h
    rw [List.foldl_cons]
    exact ih _ k (save_settings_has d st k h)

/-- Reading a freshly appended heap cell. -/
theorem heap_getD_concat (l : List SettingsDict) (x : SettingsDict) :
    (l ++ [x]).getD l.length [] = x := by
  rw [List.getD_eq_getElem?_getD, List.getElem?_concat_length]
  rfl

/-- Reading an in-bounds heap cell is unaffected by an append. -/
theorem heap_getD_append_lt (l : List SettingsDict) (x : SettingsDict) (i : Nat)
    (h : i < l.length) :
    (l ++ [x]).getD i [] = l.getD i [] := by
  rw [List.getD_eq_getElem?_getD, List.getD_eq_getElem?_getD, List.getElem?_append, if_pos h]

/-- Writing one heap cell leaves every other cell unchanged. -/
theorem set_getD_ne (l : List SettingsDict) (r j : Nat) (v : SettingsDict) (h : r ≠ j) :
    (l.set r v).getD j [] = l.getD j [] := by
  rw [List.getD_eq_getElem?_getD, List.getD_eq_getElem?_getD, List.getElem?_set_ne h]

/-- In-place mutations through a reference other than `self.settings` never
change the manager's stored dict. -/
theorem mutate_foldl_managerDict (r : Nat) (muts : List (String × SettingVal)) :
    ∀ s : ManagerState, r ≠ s.mgrRef →
      managerDict (muts.foldl (fun st kv => mutateRef st r kv.1 kv.2) s) = managerDict s := by
  induction muts with
  | nil =>
    intro s h
    rfl
  | cons kv rest ih =>
    intro s h
    rw [List.foldl_cons, ih (mutateRef s r kv.1 kv.2) h]
    unfold managerDict mutateRef
    exact set_getD_ne s.heap r s.mgrRef _ h

/-- C10: (a) after loading any settings file and applying any sequence of
saves, every `DEFAULT_SETTINGS` key is present; (b) a save merges — any key
absent from the new bindings keeps its prior value; (c) `get_settings`
returns the current stored bindings, but as a fresh copy: in-place mutations
of the returned dict, arbitrarily many, leave the manager's stored settings
unchanged. -/
theorem c10_scheduler_settings_contract
    (file : Option SettingsDict) (saves : List SettingsDict) (k : String)
    (d new : SettingsDict) (k2 : String)
    (ms : ManagerState) (muts : List (String × SettingVal))
    (hk : dictHas DEFAULT_SETTINGS k = true)
    (hk2 : dictHas new k2 = false)
    (hmgr : ms.mgrRef < ms.heap.length) :
    dictHas (saves.foldl save_settings (load_settings file)) k = true ∧
    dictGet (save_settings d new) k2 = dictGet d k2 ∧
    (get_settings ms).2.heap.getD (get_settings ms).1 [] = managerDict ms ∧
    managerDict (muts.foldl (fun s kv => mutateRef s (get_settings ms).1 kv.1 kv.2)
      (get_settings ms).2) = managerDict ms := by
  refine ⟨?_, ?_, ?_, ?_⟩
  · exact foldl_save_has saves (load_settings file) k (load_settings_has file k hk)
  · exact save_settings_not_mem new d k2 hk2
  · show (ms.heap ++ [managerDict ms]).getD ms.heap.length [] = managerDict ms
    exact heap_getD_concat ms.heap (managerDict ms)
  · have h2 := mutate_foldl_managerDict (get_settings ms).1 muts (get_settings ms).2
      (Ne.symm (Nat.ne_of_lt hmgr))
    rw [h2]
    show (ms.heap ++ [managerDict ms]).getD ms.mgrRef [] = managerDict ms
    rw [heap_getD_append_lt ms.heap (managerDict ms) ms.mgrRef hmgr]
    rfl

/-- A manager whose stored settings dict holds one binding. -/
def c10State : ManagerState :=
  { heap := [[("max_followups", SettingVal.num 2)]], mgrRef := 0 }

/-- C10 witness: a partial settings file, one save, a key absent from a
save, and a caller mutating the dict returned by `get_settings` — evaluated
through the contract theorem. -/
theorem c10_scheduler_settings_contract_witness :
    dictHas ([[("schedule_time", SettingVal.str "09:00")]].foldl save_settings
      (load_settings (some [("max_followups", SettingVal.num 5)]))) "timezone" = true ∧
    dictGet (save_settings DEFAULT_SETTINGS [("email_delay", SettingVal.num 10)])
        "max_followups" =
      dictGet DEFAULT_SETTINGS "max_followups" ∧
    (get_settings c10State).2.heap.getD (get_settings c10State).1 [] = managerDict c10State ∧
    managerDict ([("max_followups", SettingVal.num 99)].foldl
      (fun s kv => mutateRef s (get_settings c10State).1 kv.1 kv.2)
      (get_settings c10State).2) = managerDict c10State :=
  c10_scheduler_settings_contract (some [("max_followups", SettingVal.num 5)])
    [[("schedule_time", SettingVal.str "09:00")]] "timezone"
    DEFAULT_SETTINGS [("email_delay", SettingVal.num 10)] "max_followups"
    c10State [("max_followups", SettingVal.num 99)]
    (by decide) (by decide) (by decide)

end ColdEmail
